import Mathlib

/-!
Verification development for the VLC audio bar-graph modules
(`modules/spu/audiobargraph_v.c` and `modules/stream_out/bargraph.c`).

The C code is shallowly embedded: machine floats are modelled as exact
rationals (`ℚ`) wherever only finite values are involved, and as the type
`FVal` (`ℚ` plus NaN and the two infinities, with IEEE comparison
semantics) where NaN / infinity behaviour matters.  Machine integers are
modelled as `ℤ`.
-/

namespace Bargraph

/-- Embedding of `iec_scale` from `modules/spu/audiobargraph_v.c`
(lines 195-212).  The final branch of the source reads
`if (dB < -0.001f || dB > 0.001f) return (dB + 20.0f) * 0.025f + 0.5f;`
and only the fall-through case returns `1.0f`. -/
def iec_scale (dB : ℚ) : ℚ :=
  if dB < -70 then 0
  else if dB < -60 then (dB + 70) * 0.0025
  else if dB < -50 then (dB + 60) * 0.005 + 0.025
  else if dB < -40 then (dB + 50) * 0.0075 + 0.075
  else if dB < -30 then (dB + 40) * 0.015 + 0.15
  else if dB < -20 then (dB + 30) * 0.02 + 0.3
  else if dB < -0.001 ∨ 0.001 < dB then (dB + 20) * 0.025 + 0.5
  else 1

/-- The piecewise-linear scale exactly as written in spec section 4.2
(for comparison with the source's `iec_scale`): the last two branches are
`-20 ≤ db < 0 → (db+20)*0.025 + 0.5` and `db ≥ 0 → 1`. -/
def iec_scale_spec (dB : ℚ) : ℚ :=
  if dB < -70 then 0
  else if dB < -60 then (dB + 70) * 0.0025
  else if dB < -50 then (dB + 60) * 0.005 + 0.025
  else if dB < -40 then (dB + 50) * 0.0075 + 0.075
  else if dB < -30 then (dB + 40) * 0.015 + 0.15
  else if dB < -20 then (dB + 30) * 0.02 + 0.3
  else if dB < 0 then (dB + 20) * 0.025 + 0.5
  else 1

theorem iec_eq0 {x : ℚ} (h : x < -70) : iec_scale x = 0 := by
  unfold iec_scale
  rw [if_pos h]

theorem iec_eq1 {x : ℚ} (h1 : -70 ≤ x) (h2 : x < -60) :
    iec_scale x = (x + 70) * 0.0025 := by
  unfold iec_scale
  rw [if_neg (show ¬x < -70 by linarith), if_pos h2]

theorem iec_eq2 {x : ℚ} (h1 : -60 ≤ x) (h2 : x < -50) :
    iec_scale x = (x + 60) * 0.005 + 0.025 := by
  unfold iec_scale
  rw [if_neg (show ¬x < -70 by linarith), if_neg (show ¬x < -60 by linarith),
      if_pos h2]

theorem iec_eq3 {x : ℚ} (h1 : -50 ≤ x) (h2 : x < -40) :
    iec_scale x = (x + 50) * 0.0075 + 0.075 := by
  unfold iec_scale
  rw [if_neg (show ¬x < -70 by linarith), if_neg (show ¬x < -60 by linarith),
      if_neg (show ¬x < -50 by linarith), if_pos h2]

theorem iec_eq4 {x : ℚ} (h1 : -40 ≤ x) (h2 : x < -30) :
    iec_scale x = (x + 40) * 0.015 + 0.15 := by
  unfold iec_scale
  rw [if_neg (show ¬x < -70 by linarith), if_neg (show ¬x < -60 by linarith),
      if_neg (show ¬x < -50 by linarith), if_neg (show ¬x < -40 by linarith),
      if_pos h2]

theorem iec_eq5 {x : ℚ} (h1 : -30 ≤ x) (h2 : x < -20) :
    iec_scale x = (x + 30) * 0.02 + 0.3 := by
  unfold iec_scale
  rw [if_neg (show ¬x < -70 by linarith), if_neg (show ¬x < -60 by linarith),
      if_neg (show ¬x < -50 by linarith), if_neg (show ¬x < -40 by linarith),
      if_neg (show ¬x < -30 by linarith), if_pos h2]

theorem iec_eq6 {x : ℚ} (h1 : -20 ≤ x) (h2 : x < -0.001) :
    iec_scale x = (x + 20) * 0.025 + 0.5 := by
  unfold iec_scale
  rw [if_neg (show ¬x < -70 by linarith), if_neg (show ¬x < -60 by linarith),
      if_neg (show ¬x < -50 by linarith), if_neg (show ¬x < -40 by linarith),
      if_neg (show ¬x < -30 by linarith), if_neg (show ¬x < -20 by linarith),
      if_pos (Or.inl h2)]

theorem iec_eq7 {x : ℚ} (h1 : -0.001 ≤ x) (h2 : x ≤ 0.001) : iec_scale x = 1 := by
  unfold iec_scale
  rw [if_neg (show ¬x < -70 by linarith), if_neg (show ¬x < -60 by linarith),
      if_neg (show ¬x < -50 by linarith), if_neg (show ¬x < -40 by linarith),
      if_neg (show ¬x < -30 by linarith), if_neg (show ¬x < -20 by linarith),
      if_neg (show ¬(x < -0.001 ∨ 0.001 < x) by
        simp only [not_or, not_lt]
        exact ⟨h1, h2⟩)]

theorem iec_eq8 {x : ℚ} (h : 0.001 < x) : iec_scale x = (x + 20) * 0.025 + 0.5 := by
  unfold iec_scale
  rw [if_neg (show ¬x < -70 by linarith), if_neg (show ¬x < -60 by linarith),
      if_neg (show ¬x < -50 by linarith), if_neg (show ¬x < -40 by linarith),
      if_neg (show ¬x < -30 by linarith), if_neg (show ¬x < -20 by linarith),
      if_pos (Or.inr h)]

/-- Every rational falls in exactly one of the nine branch regions of the
source's `iec_scale`. -/
theorem iec_region (x : ℚ) :
    x < -70 ∨ (-70 ≤ x ∧ x < -60) ∨ (-60 ≤ x ∧ x < -50) ∨ (-50 ≤ x ∧ x < -40) ∨
    (-40 ≤ x ∧ x < -30) ∨ (-30 ≤ x ∧ x < -20) ∨ (-20 ≤ x ∧ x < -0.001) ∨
    (-0.001 ≤ x ∧ x ≤ 0.001) ∨ 0.001 < x := by
  rcases lt_or_le x (-70) with h0 | h0
  · exact Or.inl h0
  rcases lt_or_le x (-60) with h1 | h1
  · exact Or.inr (Or.inl ⟨h0, h1⟩)
  rcases lt_or_le x (-50) with h2 | h2
  · exact Or.inr (Or.inr (Or.inl ⟨h1, h2⟩))
  rcases lt_or_le x (-40) with h3 | h3
  · exact Or.inr (Or.inr (Or.inr (Or.inl ⟨h2, h3⟩)))
  rcases lt_or_le x (-30) with h4 | h4
  · exact Or.inr (Or.inr (Or.inr (Or.inr (Or.inl ⟨h3, h4⟩))))
  rcases lt_or_le x (-20) with h5 | h5
  · exact Or.inr (Or.inr (Or.inr (Or.inr (Or.inr (Or.inl ⟨h4, h5⟩)))))
  rcases lt_or_le x (-0.001) with h6 | h6
  · exact Or.inr (Or.inr (Or.inr (Or.inr (Or.inr (Or.inr (Or.inl ⟨h5, h6⟩))))))
  rcases le_or_lt x 0.001 with h7 | h7
  · exact Or.inr (Or.inr (Or.inr (Or.inr (Or.inr (Or.inr (Or.inr (Or.inl ⟨h6, h7⟩)))))))
  · exact Or.inr (Or.inr (Or.inr (Or.inr (Or.inr (Or.inr (Or.inr (Or.inr h7)))))))

example : iec_scale 0 = 1 := by norm_num [iec_scale]
example : iec_scale 1 = 41/40 := by norm_num [iec_scale]
example : iec_scale_spec 1 = 1 := by norm_num [iec_scale_spec]

/-- C1 (counterexample): at input `db = 1 ≥ 0` the source's `iec_scale`
returns `41/40 = 1.025`, not `1` as the spec's formula demands, and the
result lies outside `[0,1]`. -/
theorem iec_scale_c1_counterexample :
    iec_scale 1 ≠ iec_scale_spec 1 ∧ iec_scale 1 ≠ 1 ∧ 1 < iec_scale 1 := by
  refine ⟨by norm_num [iec_scale, iec_scale_spec], by norm_num [iec_scale],
    by norm_num [iec_scale]⟩

set_option maxHeartbeats 2000000 in
/-- C1 (amended): `iec_scale` agrees with the spec's piecewise formula for
all `db < -0.001`; it returns exactly `1` on the window
`-0.001 ≤ db ≤ 0.001`; for `db > 0.001` it returns `(db+20)*0.025 + 0.5`,
which exceeds `1`; and for every `db ≤ 0.001` its result lies in `[0,1]`. -/
theorem iec_scale_c1_amended (dB : ℚ) :
    (dB < -0.001 → iec_scale dB = iec_scale_spec dB) ∧
    (-0.001 ≤ dB → dB ≤ 0.001 → iec_scale dB = 1) ∧
    (0.001 < dB → iec_scale dB = (dB + 20) * 0.025 + 0.5 ∧ 1 < iec_scale dB) ∧
    (dB ≤ 0.001 → 0 ≤ iec_scale dB ∧ iec_scale dB ≤ 1) := by
  refine ⟨fun h => ?_, fun h h2 => iec_eq7 h h2,
          fun h => ⟨iec_eq8 h, by rw [iec_eq8 h]; linarith⟩, fun h => ?_⟩ <;>
    rcases iec_region dB with hx | ⟨h1, h2'⟩ | ⟨h1, h2'⟩ | ⟨h1, h2'⟩ | ⟨h1, h2'⟩ |
      ⟨h1, h2'⟩ | ⟨h1, h2'⟩ | ⟨h1, h2'⟩ | hx <;>
    (first
      | rw [iec_eq0 hx] | rw [iec_eq1 h1 h2'] | rw [iec_eq2 h1 h2']
      | rw [iec_eq3 h1 h2'] | rw [iec_eq4 h1 h2'] | rw [iec_eq5 h1 h2']
      | rw [iec_eq6 h1 h2'] | rw [iec_eq7 h1 h2'] | rw [iec_eq8 hx]) <;>
    first
      | (unfold iec_scale_spec; split_ifs <;> linarith)
      | (constructor <;> linarith)

/-- C1 (witness for the amended theorem at concrete inputs): at
`db = -30` the source agrees with the spec's formula, and at `db = 2` it
returns `(2+20)*0.025 + 0.5 = 1.05`. -/
theorem iec_scale_c1_amended_witness :
    iec_scale (-30) = iec_scale_spec (-30) ∧ iec_scale 2 = (2 + 20) * 0.025 + 0.5 := by
  refine ⟨(iec_scale_c1_amended (-30)).1 (by norm_num),
          ((iec_scale_c1_amended 2).2.2.1 (by norm_num)).1⟩

set_option maxHeartbeats 2000000 in
/-- C8: `iec_scale` is monotone non-decreasing over the whole domain, and
takes the anchor values `iec_scale 0 = 1`, `iec_scale (-70) = 0`,
`iec_scale (-75) = 0`. -/
theorem iec_scale_monotone_anchors :
    (∀ a b : ℚ, a ≤ b → iec_scale a ≤ iec_scale b) ∧
    iec_scale 0 = 1 ∧ iec_scale (-70) = 0 ∧ iec_scale (-75) = 0 := by
  refine ⟨?_, by norm_num [iec_scale], by norm_num [iec_scale], by norm_num [iec_scale]⟩
  intro a b hab
  rcases iec_region a with ha | ⟨ha1, ha2⟩ | ⟨ha1, ha2⟩ | ⟨ha1, ha2⟩ | ⟨ha1, ha2⟩ |
    ⟨ha1, ha2⟩ | ⟨ha1, ha2⟩ | ⟨ha1, ha2⟩ | ha <;>
  rcases iec_region b with hb | ⟨hb1, hb2⟩ | ⟨hb1, hb2⟩ | ⟨hb1, hb2⟩ | ⟨hb1, hb2⟩ |
    ⟨hb1, hb2⟩ | ⟨hb1, hb2⟩ | ⟨hb1, hb2⟩ | hb <;>
  (first
    | rw [iec_eq0 ha] | rw [iec_eq1 ha1 ha2] | rw [iec_eq2 ha1 ha2]
    | rw [iec_eq3 ha1 ha2] | rw [iec_eq4 ha1 ha2] | rw [iec_eq5 ha1 ha2]
    | rw [iec_eq6 ha1 ha2] | rw [iec_eq7 ha1 ha2] | rw [iec_eq8 ha]) <;>
  (first
    | rw [iec_eq0 hb] | rw [iec_eq1 hb1 hb2] | rw [iec_eq2 hb1 hb2]
    | rw [iec_eq3 hb1 hb2] | rw [iec_eq4 hb1 hb2] | rw [iec_eq5 hb1 hb2]
    | rw [iec_eq6 hb1 hb2] | rw [iec_eq7 hb1 hb2] | rw [iec_eq8 hb]) <;>
  linarith

/-- C8 (witness): monotonicity applied at the concrete pair `-30 ≤ -10`. -/
theorem iec_scale_monotone_anchors_witness :
    iec_scale (-30) ≤ iec_scale (-10) :=
  iec_scale_monotone_anchors.1 (-30) (-10) (by norm_num)

/-! ### IEEE special values

`float` values including NaN and the infinities, for the places where the
renderer's behaviour on non-finite data matters.  Comparisons follow IEEE
754: every ordered comparison involving NaN is false. -/

inductive FVal where
  | nan : FVal
  | neginf : FVal
  | posinf : FVal
  | fin (q : ℚ) : FVal
deriving DecidableEq

/-- IEEE `<` on `FVal`: any comparison with NaN is false. -/
def FVal.flt : FVal → FVal → Bool
  | .nan, _ => false
  | _, .nan => false
  | .neginf, .neginf => false
  | .neginf, _ => true
  | _, .neginf => false
  | .posinf, _ => false
  | .fin _, .posinf => true
  | .fin a, .fin b => decide (a < b)

/-- IEEE addition on `FVal` (exact on finite values; NaN propagates;
`+inf + -inf = NaN`). -/
def FVal.add : FVal → FVal → FVal
  | .nan, _ => .nan
  | _, .nan => .nan
  | .posinf, .neginf => .nan
  | .neginf, .posinf => .nan
  | .posinf, _ => .posinf
  | _, .posinf => .posinf
  | .neginf, _ => .neginf
  | _, .neginf => .neginf
  | .fin a, .fin b => .fin (a + b)

/-- IEEE multiplication on `FVal` (exact on finite values; NaN propagates;
`inf * 0 = NaN`, otherwise infinities follow the sign rule). -/
def FVal.mul : FVal → FVal → FVal
  | .nan, _ => .nan
  | _, .nan => .nan
  | .posinf, .posinf => .posinf
  | .posinf, .neginf => .neginf
  | .neginf, .posinf => .neginf
  | .neginf, .neginf => .posinf
  | .posinf, .fin b => if b = 0 then .nan else if 0 < b then .posinf else .neginf
  | .fin a, .posinf => if a = 0 then .nan else if 0 < a then .posinf else .neginf
  | .neginf, .fin b => if b = 0 then .nan else if 0 < b then .neginf else .posinf
  | .fin a, .neginf => if a = 0 then .nan else if 0 < a then .neginf else .posinf
  | .fin a, .fin b => .fin (a * b)

/-- `__MIN(a, b) = ((a) < (b) ? (a) : (b))` from `vlc_common.h`. -/
def vlc_min (a b : FVal) : FVal := if a.flt b then a else b

/-- `__MAX(a, b) = ((a) > (b) ? (a) : (b))` from `vlc_common.h`
(`a > b` is the IEEE comparison `b < a`). -/
def vlc_max (a b : FVal) : FVal := if b.flt a then a else b

/-- `VLC_CLIP(v, min, max) = __MIN(__MAX(v, min), max)` from `vlc_common.h`. -/
def VLC_CLIP (v lo hi : FVal) : FVal := vlc_min (vlc_max v lo) hi

/-- `iec_scale` again (`modules/spu/audiobargraph_v.c` lines 195-212), this
time over `FVal` so that its behaviour on NaN and the infinities is the
source's comparison chain verbatim. -/
def iec_scaleF (dB : FVal) : FVal :=
  if dB.flt (.fin (-70)) then .fin 0
  else if dB.flt (.fin (-60)) then (dB.add (.fin 70)).mul (.fin 0.0025)
  else if dB.flt (.fin (-50)) then ((dB.add (.fin 60)).mul (.fin 0.005)).add (.fin 0.025)
  else if dB.flt (.fin (-40)) then ((dB.add (.fin 50)).mul (.fin 0.0075)).add (.fin 0.075)
  else if dB.flt (.fin (-30)) then ((dB.add (.fin 40)).mul (.fin 0.015)).add (.fin 0.15)
  else if dB.flt (.fin (-20)) then ((dB.add (.fin 30)).mul (.fin 0.02)).add (.fin 0.3)
  else if dB.flt (.fin (-0.001)) || (FVal.fin 0.001).flt dB then
    ((dB.add (.fin 20)).mul (.fin 0.025)).add (.fin 0.5)
  else .fin 1

/-- Modelled from the spec: the renderer's dB conversion `log10(peak) * 20`
(`Draw`, `modules/spu/audiobargraph_v.c` line 298).  The C library `log10`
is external to this repository; spec sections 4.3 (step 5) and 9 fix
`log10(1) = 0` and `log10(0) = -inf`, and IEEE fixes `log10(NaN) = NaN`.
Inputs whose logarithm is not exactly representable are left unmodelled
(`none`). -/
def peak_to_db_exact : FVal → Option FVal
  | .nan => some .nan
  | .neginf => some .nan
  | .posinf => some .posinf
  | .fin q => if q = 0 then some .neginf else if q = 1 then some (.fin 0) else none

/-- `Draw` (`modules/spu/audiobargraph_v.c` lines 298-299): the filled bar
height in pixels for one channel,
`db = VLC_CLIP(iec_scale(db) * barHeight, 0, barHeight)`. -/
def filled_db_px (db : FVal) (barHeight : ℚ) : FVal :=
  VLC_CLIP ((iec_scaleF db).mul (.fin barHeight)) (.fin 0) (.fin barHeight)

theorem iec_scaleF_nan : iec_scaleF FVal.nan = FVal.fin 1 := rfl

theorem iec_scaleF_neginf : iec_scaleF FVal.neginf = FVal.fin 0 := rfl

theorem iec_scaleF_fin_zero : iec_scaleF (FVal.fin 0) = FVal.fin 1 := by
  norm_num [iec_scaleF, FVal.flt]

/-- Clipping the value `H` itself to `[0, H]` returns `H`, and clipping `0`
returns `0`, whenever `0 ≤ H`. -/
theorem VLC_CLIP_fin_bounds {H : ℚ} (hH : 0 ≤ H) :
    VLC_CLIP (FVal.fin H) (FVal.fin 0) (FVal.fin H) = FVal.fin H ∧
    VLC_CLIP (FVal.fin 0) (FVal.fin 0) (FVal.fin H) = FVal.fin 0 := by
  rcases hH.lt_or_eq with h | h
  · constructor <;> simp [VLC_CLIP, vlc_min, vlc_max, FVal.flt, h, le_of_lt h,
      not_lt.mpr (le_of_lt h), lt_irrefl]
  · constructor <;> simp [VLC_CLIP, vlc_min, vlc_max, FVal.flt, ← h, lt_irrefl]

/-- C9: for a channel whose peak is exactly `1.0` (0 dB) the filled bar
height computed by `Draw` equals `barHeight`; for a peak of exactly `0.0`
(`log10(0) = -inf`, absorbed by the `-70` floor of the scale mapper) the
filled height equals `0`. -/
theorem bar_fill_heights_c9 (H : ℚ) (d1 d0 : FVal) (hH : 0 ≤ H)
    (h1 : peak_to_db_exact (FVal.fin 1) = some d1)
    (h0 : peak_to_db_exact (FVal.fin 0) = some d0) :
    filled_db_px d1 H = FVal.fin H ∧ filled_db_px d0 H = FVal.fin 0 := by
  have hd1 : d1 = FVal.fin 0 := by
    norm_num [peak_to_db_exact] at h1
    exact h1.symm
  have hd0 : d0 = FVal.neginf := by
    norm_num [peak_to_db_exact] at h0
    exact h0.symm
  subst hd1 hd0
  have hclip := VLC_CLIP_fin_bounds hH
  constructor
  · show VLC_CLIP ((iec_scaleF (FVal.fin 0)).mul (.fin H)) (.fin 0) (.fin H) = FVal.fin H
    rw [iec_scaleF_fin_zero]
    show VLC_CLIP (FVal.fin (1 * H)) (.fin 0) (.fin H) = FVal.fin H
    rw [one_mul]
    exact hclip.1
  · show VLC_CLIP ((iec_scaleF FVal.neginf).mul (.fin H)) (.fin 0) (.fin H) = FVal.fin 0
    rw [iec_scaleF_neginf]
    show VLC_CLIP (FVal.fin (0 * H)) (.fin 0) (.fin H) = FVal.fin 0
    rw [zero_mul]
    exact hclip.2

/-- C9 (witness): at the default `barHeight = 300`, a peak of `1.0` fills
300 pixels and a peak of `0.0` fills none. -/
theorem bar_fill_heights_c9_witness :
    filled_db_px (FVal.fin 0) 300 = FVal.fin 300 ∧
    filled_db_px FVal.neginf 300 = FVal.fin 0 :=
  bar_fill_heights_c9 300 (FVal.fin 0) FVal.neginf (by norm_num)
    (by norm_num [peak_to_db_exact]) (by norm_num [peak_to_db_exact])

/-- C10: on a NaN input every comparison in `iec_scale`'s branch chain is
false, so the function falls through and returns exactly `1.0`; a NaN peak
measurement (`log10(NaN) * 20 = NaN`) therefore renders as a full bar of
height `barHeight`, not as silence. -/
theorem iec_scale_nan_c10 (H : ℚ) (d : FVal) (hH : 0 ≤ H)
    (hd : peak_to_db_exact FVal.nan = some d) :
    iec_scaleF FVal.nan = FVal.fin 1 ∧ filled_db_px d H = FVal.fin H := by
  have hdn : d = FVal.nan := by
    simp [peak_to_db_exact] at hd
    exact hd.symm
  subst hdn
  refine ⟨iec_scaleF_nan, ?_⟩
  show VLC_CLIP ((iec_scaleF FVal.nan).mul (.fin H)) (.fin 0) (.fin H) = FVal.fin H
  rw [iec_scaleF_nan]
  show VLC_CLIP (FVal.fin (1 * H)) (.fin 0) (.fin H) = FVal.fin H
  rw [one_mul]
  exact (VLC_CLIP_fin_bounds hH).1

/-- C10 (witness): at `barHeight = 300` a NaN dB value renders 300 filled
pixels. -/
theorem iec_scale_nan_c10_witness :
    iec_scaleF FVal.nan = FVal.fin 1 ∧ filled_db_px FVal.nan 300 = FVal.fin 300 :=
  iec_scale_nan_c10 300 FVal.nan (by norm_num) (by simp [peak_to_db_exact])

/-! ### Data model

The two modules declare a struct named `bargraph_data_t` with DIFFERENT
layouts: the producer (`modules/stream_out/bargraph.c` lines 144-149) gives
it a peak queue `vlc_fifo_t* p_fifo`, while the renderer
(`modules/spu/audiobargraph_v.c` lines 106-111) gives it an inline array
`float channels_peaks[AOUT_CHAN_MAX]`.  The same heap object is shared
between the modules through the `audiobargraph_v-i_values` variable.  The
embedding carries both fields on one record so that what each module reads
and writes can be stated side by side: the producer's enqueue touches only
`p_fifo`, the renderer's `Draw` reads only `channels_peaks`. -/

/-- `peak_data_t` (`modules/stream_out/bargraph.c` lines 140-142): one peak
snapshot, one float per channel (`AOUT_CHAN_MAX = 9` in VLC). -/
structure peak_data_t where
  channels_peaks : List ℚ
deriving DecidableEq

/-- The shared per-stream record (see the section comment above). -/
structure bargraph_data_t where
  psz_stream_name : String
  i_stream_id : ℤ
  i_nb_channels : ℤ
  p_fifo : List peak_data_t
  channels_peaks : List ℚ
deriving DecidableEq

/-- `shared_bargraph_data_t` (both files): the stream registry.  The mutex
and refcount govern concurrency and lifetime, not the visible state, and
are not part of the embedding. -/
structure shared_bargraph_data_t where
  p_streams : List bargraph_data_t
  i_count_channels : ℤ
deriving DecidableEq

/-- `es_format_t` restricted to the fields `shared_bargraph_data_add_stream`
reads: `i_id`, `audio.i_channels`, `psz_language`. -/
structure es_format_t where
  i_id : ℤ
  i_channels : ℤ
  psz_language : Option String
deriving DecidableEq

/-- The bounded-enqueue step of `decoder_queue_audio`
(`modules/stream_out/bargraph.c` lines 380-389): if the fifo currently
holds MORE than 100 blocks, one block is dequeued (the front, i.e. the
oldest) and released, then the new block is queued at the back. -/
def decoder_queue_push (fifo : List peak_data_t) (blk : peak_data_t) : List peak_data_t :=
  (if 100 < fifo.length then fifo.tail else fifo) ++ [blk]

/-- The effect of `decoder_queue_audio` on its stream record: the computed
peak snapshot is pushed onto `p_fifo`; no other field is written. -/
def decoder_queue_audio (d : bargraph_data_t) (blk : peak_data_t) : bargraph_data_t :=
  { d with p_fifo := decoder_queue_push d.p_fifo blk }

/-- What `Draw` (`modules/spu/audiobargraph_v.c` line 298) reads for
channel `i` of a stream: the record's `channels_peaks[i]` field, directly —
it performs no fifo access at all. -/
def draw_channel_peak (d : bargraph_data_t) (i : ℕ) : ℚ :=
  d.channels_peaks.getD i 0

/-- A distinct one-channel peak snapshot for each index, used to drive the
queue with distinguishable data. -/
def snap (k : ℕ) : peak_data_t := ⟨[(k : ℚ)]⟩

/-- Pushing `n` distinct snapshots into an empty fifo. -/
def push_range (n : ℕ) : List peak_data_t :=
  (List.range n).foldl (fun q k => decoder_queue_push q (snap k)) []

set_option maxRecDepth 4000 in
/-- C3 (counterexample): pushing 101 distinct snapshots into an empty queue
does NOT leave 100 entries — it leaves 101, and the first snapshot pushed
is still at the front, not evicted (the source's drop test is
`vlc_fifo_GetCount(fifo) > 100` BEFORE the insert). -/
theorem fifo_capacity_c3_counterexample :
    (push_range 101).length ≠ 100 ∧ (push_range 101).head? = some (snap 0) := by
  constructor
  · decide
  · rfl

set_option maxRecDepth 4000 in
/-- C3 (amended): the drop test `count > 100` runs before the insert, so
101 pushes leave exactly 101 entries with the first still present; the
first eviction happens on the 102nd push, which removes the oldest entry
(FIFO drop-oldest) and again leaves 101 entries, now fronted by the second
snapshot. -/
theorem fifo_capacity_c3_amended :
    (push_range 101).length = 101 ∧ (push_range 101).head? = some (snap 0) ∧
    (push_range 102).length = 101 ∧ (push_range 102).head? = some (snap 1) := by
  refine ⟨by decide, rfl, by decide, rfl⟩

/-- Building the record that `shared_bargraph_data_add_stream`
(`modules/stream_out/bargraph.c` lines 219-242) allocates: empty fifo,
stream id and channel count taken from the format, display name
`"<id> [<language>]"` or `"<id>"`.  The `calloc` zero-fill is what the
renderer's view of the unwritten tail of the object reads, so the
renderer-side `channels_peaks` view starts out empty/zero. -/
def new_stream_record (fmt : es_format_t) : bargraph_data_t :=
  { psz_stream_name :=
      match fmt.psz_language with
      | some lang => toString fmt.i_id ++ " [" ++ lang ++ "]"
      | none => toString fmt.i_id
    i_stream_id := fmt.i_id
    i_nb_channels := fmt.i_channels
    p_fifo := []
    channels_peaks := [] }

/-- A freshly added 2-channel stream record and a full-scale snapshot, used
as the concrete failing input for C2. -/
def demo_fmt : es_format_t := { i_id := 1, i_channels := 2, psz_language := none }

def full_peak : peak_data_t := ⟨[1, 1]⟩

/-- C2 (code divergence): the renderer never drains or peeks the queue.
`Draw` reads the record field `channels_peaks` directly, and the producer's
`decoder_queue_audio` writes only `p_fifo`, so (first conjunct) NO enqueue
ever changes what the renderer reads; concretely (remaining conjuncts),
after the producer enqueues a full-scale `1.0` peak on a fresh stream, the
renderer still reads `0` for that channel while the snapshot sits unread in
the fifo. -/
theorem renderer_never_drains_c2 :
    (∀ (d : bargraph_data_t) (blk : peak_data_t) (i : ℕ),
        draw_channel_peak (decoder_queue_audio d blk) i = draw_channel_peak d i) ∧
    draw_channel_peak (decoder_queue_audio (new_stream_record demo_fmt) full_peak) 0 = 0 ∧
    (decoder_queue_audio (new_stream_record demo_fmt) full_peak).p_fifo = [full_peak] :=
  ⟨fun _ _ _ => rfl, rfl, rfl⟩

/-! ### The stream registry -/

/-- `shared_bargraph_data_sort_streams` (`modules/stream_out/bargraph.c`
lines 187-190): `qsort` with comparator `a->i_stream_id - b->i_stream_id`,
i.e. a comparison sort ascending by stream id (modelled by insertion sort —
the observable result is a sorted permutation either way). -/
def shared_bargraph_data_sort_streams (l : List bargraph_data_t) : List bargraph_data_t :=
  List.insertionSort (fun a b => a.i_stream_id ≤ b.i_stream_id) l

instance : IsTotal bargraph_data_t (fun a b => a.i_stream_id ≤ b.i_stream_id) :=
  ⟨fun a b => le_total a.i_stream_id b.i_stream_id⟩

instance : IsTrans bargraph_data_t (fun a b => a.i_stream_id ≤ b.i_stream_id) :=
  ⟨fun _ _ _ h1 h2 => le_trans h1 h2⟩

/-- `shared_bargraph_data_new` (`modules/stream_out/bargraph.c` lines
192-199): `calloc` zero-fill, so no streams and `i_count_channels = 0`. -/
def shared_bargraph_data_new : shared_bargraph_data_t :=
  { p_streams := [], i_count_channels := 0 }

/-- `shared_bargraph_data_add_stream` (`modules/stream_out/bargraph.c`
lines 219-242): `TAB_APPEND` the new record, re-sort, add its channel count
to `i_count_channels`; the new record is returned to the caller. -/
def shared_bargraph_data_add_stream (reg : shared_bargraph_data_t) (fmt : es_format_t) :
    shared_bargraph_data_t × bargraph_data_t :=
  let d := new_stream_record fmt
  ({ p_streams := shared_bargraph_data_sort_streams (reg.p_streams ++ [d]),
     i_count_channels := reg.i_count_channels + d.i_nb_channels }, d)

/-- `shared_bargraph_data_del_stream` (`modules/stream_out/bargraph.c`
lines 244-255): `TAB_REMOVE` the record (removes the first occurrence),
re-sort, subtract its channel count. -/
def shared_bargraph_data_del_stream (reg : shared_bargraph_data_t)
    (d : bargraph_data_t) : shared_bargraph_data_t :=
  { p_streams := shared_bargraph_data_sort_streams (reg.p_streams.erase d),
    i_count_channels := reg.i_count_channels - d.i_nb_channels }

/-- A structural mutation of the registry: `Add` calls
`shared_bargraph_data_add_stream`, `Del` calls
`shared_bargraph_data_del_stream`. -/
inductive RegOp where
  | add (fmt : es_format_t) : RegOp
  | del (d : bargraph_data_t) : RegOp
deriving DecidableEq

def applyOp (reg : shared_bargraph_data_t) : RegOp → shared_bargraph_data_t
  | .add fmt => (shared_bargraph_data_add_stream reg fmt).1
  | .del d => shared_bargraph_data_del_stream reg d

/-- Validity of an operation sequence: `del` is only ever called with a
record currently in the registry (in the source, `Del` passes the handle
that `Add` returned for a still-registered stream). -/
def validOps : shared_bargraph_data_t → List RegOp → Bool
  | _, [] => true
  | reg, op :: ops =>
    (match op with
     | RegOp.add _ => true
     | RegOp.del d => decide (d ∈ reg.p_streams)) && validOps (applyOp reg op) ops

/-- The spec's registry invariant: `i_count_channels` equals the sum of the
channel counts of the streams currently registered. -/
def channel_inv (reg : shared_bargraph_data_t) : Prop :=
  reg.i_count_channels = (reg.p_streams.map (fun d => d.i_nb_channels)).sum

theorem sum_map_sort (l : List bargraph_data_t) (f : bargraph_data_t → ℤ) :
    ((shared_bargraph_data_sort_streams l).map f).sum = (l.map f).sum :=
  ((List.perm_insertionSort _ l).map f).sum_eq

theorem channel_inv_step (reg : shared_bargraph_data_t) (op : RegOp)
    (hinv : channel_inv reg)
    (hok : match op with | .add _ => True | .del d => d ∈ reg.p_streams) :
    channel_inv (applyOp reg op) := by
  cases op with
  | add fmt =>
      show channel_inv (shared_bargraph_data_add_stream reg fmt).1
      unfold channel_inv shared_bargraph_data_add_stream
      rw [sum_map_sort]
      simp only [List.map_append, List.sum_append, List.map_cons, List.map_nil,
        List.sum_cons, List.sum_nil]
      rw [hinv]
      ring
  | del d =>
      show channel_inv (shared_bargraph_data_del_stream reg d)
      unfold channel_inv shared_bargraph_data_del_stream
      dsimp only
      rw [sum_map_sort]
      have hmem : d ∈ reg.p_streams := hok
      have hperm : reg.p_streams.Perm (d :: reg.p_streams.erase d) :=
        List.perm_cons_erase hmem
      have hsum := (hperm.map (fun d => d.i_nb_channels)).sum_eq
      simp only [List.map_cons, List.sum_cons] at hsum
      rw [hinv] at *
      omega

theorem channel_inv_fold (ops : List RegOp) :
    ∀ (reg : shared_bargraph_data_t), channel_inv reg →
      validOps reg ops = true → ∀ n : ℕ,
      channel_inv ((ops.take n).foldl applyOp reg) := by
  induction ops with
  | nil =>
      intro reg hi _ n
      simpa using hi
  | cons op rest ih =>
      intro reg hi hv n
      cases n with
      | zero => simpa using hi
      | succ m =>
          rw [List.take_succ_cons, List.foldl_cons]
          cases op with
          | add fmt =>
              simp only [validOps, Bool.true_and] at hv
              exact ih (applyOp reg (.add fmt))
                (channel_inv_step reg (.add fmt) hi trivial) hv m
          | del d =>
              simp only [validOps, Bool.and_eq_true, decide_eq_true_eq] at hv
              exact ih (applyOp reg (.del d))
                (channel_inv_step reg (.del d) hi hv.1) hv.2 m

/-- C6: starting from a fresh registry, after any valid sequence of
`add_stream` / `del_stream` calls — and at every intermediate observation
point along the sequence — `i_count_channels` equals the sum of the channel
counts of the streams currently in the registry. -/
theorem registry_channel_count_c6 (ops : List RegOp)
    (hv : validOps shared_bargraph_data_new ops = true) (n : ℕ) :
    channel_inv ((ops.take n).foldl applyOp shared_bargraph_data_new) :=
  channel_inv_fold ops shared_bargraph_data_new rfl hv n

def demo_fmt2 : es_format_t := { i_id := 2, i_channels := 6, psz_language := none }

def demo_ops : List RegOp :=
  [RegOp.add demo_fmt, RegOp.add demo_fmt2, RegOp.del (new_stream_record demo_fmt)]

/-- C6 (witness): a concrete valid sequence — add a 2-channel stream, add a
6-channel stream, remove the first — keeps the invariant at the end. -/
theorem registry_channel_count_c6_witness :
    validOps shared_bargraph_data_new demo_ops = true ∧
    channel_inv ((demo_ops.take 3).foldl applyOp shared_bargraph_data_new) :=
  ⟨by decide, registry_channel_count_c6 demo_ops (by decide) 3⟩

/-- C7: after every structural mutation of the registry (`add_stream` or
`del_stream`, both of which end with `shared_bargraph_data_sort_streams`),
the stream sequence is sorted ascending by `i_stream_id`. -/
theorem registry_sorted_c7 (reg : shared_bargraph_data_t) (op : RegOp) :
    List.Sorted (fun a b : bargraph_data_t => a.i_stream_id ≤ b.i_stream_id)
      (applyOp reg op).p_streams := by
  cases op with
  | add fmt => exact List.sorted_insertionSort _ _
  | del d => exact List.sorted_insertionSort _ _

/-! ### Canvas geometry: raster (`Draw`) vs vector (`DrawBargraph`) -/

/-- Raster canvas width, from `Draw` (`modules/spu/audiobargraph_v.c` lines
263-267): `w = barWidth; for each stream: w += (nb_channels + 1) * (5 + barWidth)`. -/
def draw_canvas_width (barWidth : ℤ) (streams : List bargraph_data_t) : ℤ :=
  streams.foldl (fun w d => w + (d.i_nb_channels + 1) * (5 + barWidth)) barWidth

/-- Raster canvas height, from `Draw` (line 268): `h = barHeight + 30`. -/
def draw_canvas_height (barHeight : ℤ) : ℤ := barHeight + 30

/-- SVG canvas width, from `DrawBargraph` (lines 382-387):
`i_width = barWidth; for each stream: i_width += nb_channels * (barWidth + 5) + barWidth`
(with `i_sep = 5`). -/
def svg_canvas_width (barWidth : ℤ) (streams : List bargraph_data_t) : ℤ :=
  streams.foldl (fun w d => w + (d.i_nb_channels * (barWidth + 5) + barWidth)) barWidth

/-- SVG canvas height, from `DrawBargraph` (lines 372, 391-392):
`i_height = barHeight`. -/
def svg_canvas_height (barHeight : ℤ) : ℤ := barHeight

/-- Raster -8 dB tier threshold, from `Draw` (line 287):
`minus8 = iec_scale(-8) * barHeight + 20` (a pixel offset from the bar
bottom; the C code truncates to `int`, exact here for the values used). -/
def draw_minus8 (barHeight : ℚ) : ℚ := iec_scale (-8) * barHeight + 20

/-- Raster -18 dB tier threshold, from `Draw` (line 288). -/
def draw_minus18 (barHeight : ℚ) : ℚ := iec_scale (-18) * barHeight + 20

/-- SVG drawing scale, from `DrawBargraph` (lines 375-376, 401):
`scale = (barHeight - 10) - 10`. -/
def svg_scale (barHeight : ℚ) : ℚ := (barHeight - 10) - 10

/-- SVG -8 dB tier threshold, from `DrawBargraph` (line 403):
`minus8 = scale - iec_scale(-8) * scale` (measured from the top). -/
def svg_minus8 (barHeight : ℚ) : ℚ :=
  svg_scale barHeight - iec_scale (-8) * svg_scale barHeight

/-- SVG -18 dB tier threshold, from `DrawBargraph` (line 404). -/
def svg_minus18 (barHeight : ℚ) : ℚ :=
  svg_scale barHeight - iec_scale (-18) * svg_scale barHeight

/-- The stream list of a registry holding the single 2-channel demo stream. -/
def demo_streams : List bargraph_data_t :=
  (shared_bargraph_data_add_stream shared_bargraph_data_new demo_fmt).1.p_streams

/-- C4 (counterexample): with `barWidth = 30`, `barHeight = 300` and one
2-channel stream, the raster canvas is 135 x 330 while the SVG canvas is
130 x 300 — the two renderers do not compute the same geometry. -/
theorem renderer_geometry_c4_counterexample :
    draw_canvas_width 30 demo_streams = 135 ∧ svg_canvas_width 30 demo_streams = 130 ∧
    draw_canvas_width 30 demo_streams ≠ svg_canvas_width 30 demo_streams ∧
    draw_canvas_height 300 = 330 ∧ svg_canvas_height 300 = 300 ∧
    draw_canvas_height 300 ≠ svg_canvas_height 300 := by
  refine ⟨by decide, by decide, by decide, by decide, by decide, by decide⟩

theorem foldl_add_init (f : bargraph_data_t → ℤ) (l : List bargraph_data_t) (a : ℤ) :
    l.foldl (fun w d => w + f d) a = a + (l.map f).sum := by
  induction l generalizing a with
  | nil => simp
  | cons d ds ih => simp [ih, add_assoc]

theorem sum_map_width_diff (W : ℤ) (l : List bargraph_data_t) :
    (l.map (fun d => (d.i_nb_channels + 1) * (5 + W))).sum =
    (l.map (fun d => d.i_nb_channels * (W + 5) + W)).sum + 5 * l.length := by
  induction l with
  | nil => simp
  | cons d ds ih =>
      simp only [List.map_cons, List.sum_cons, List.length_cons, ih]
      push_cast
      ring

/-- C4 (amended): the two renderers' geometries differ by fixed offsets
rather than agreeing: for every registry state the raster width exceeds the
SVG width by 5 pixels per stream, the raster height exceeds the SVG height
by the 30-pixel label margin, and the tier thresholds are computed over
different scales — raster `minus8 = 0.8*H + 20`, `minus18 = 0.55*H + 20`
(from the bar bottom, over `H`) versus SVG `minus8 = 0.2*(H-20)`,
`minus18 = 0.45*(H-20)` (from the top, over `H-20`). -/
theorem renderer_geometry_c4_amended (W H : ℤ) (Hq : ℚ) (streams : List bargraph_data_t) :
    draw_canvas_width W streams = svg_canvas_width W streams + 5 * streams.length ∧
    draw_canvas_height H = svg_canvas_height H + 30 ∧
    draw_minus8 Hq = 0.8 * Hq + 20 ∧ svg_minus8 Hq = 0.2 * (Hq - 20) ∧
    draw_minus18 Hq = 0.55 * Hq + 20 ∧ svg_minus18 Hq = 0.45 * (Hq - 20) := by
  refine ⟨?_, rfl, ?_, ?_, ?_, ?_⟩
  · have h1 := foldl_add_init (fun d => (d.i_nb_channels + 1) * (5 + W)) streams W
    have h2 := foldl_add_init (fun d => d.i_nb_channels * (W + 5) + W) streams W
    show streams.foldl (fun w d => w + (d.i_nb_channels + 1) * (5 + W)) W =
      streams.foldl (fun w d => w + (d.i_nb_channels * (W + 5) + W)) W + 5 * streams.length
    rw [h1, h2, sum_map_width_diff]
    ring
  · have h8 : iec_scale (-8) = 0.8 := by norm_num [iec_scale]
    rw [draw_minus8, h8]
  · have h8 : iec_scale (-8) = 0.8 := by norm_num [iec_scale]
    rw [svg_minus8, svg_scale, h8]
    ring
  · have h18 : iec_scale (-18) = 0.55 := by norm_num [iec_scale]
    rw [draw_minus18, h18]
  · have h18 : iec_scale (-18) = 0.55 := by norm_num [iec_scale]
    rw [svg_minus18, svg_scale, h18]
    ring

/-- C5: for every set of streams with channel counts `c_i`, bar width `W`
and separator 5, the raster canvas width computed by `Draw` equals
`W + Σ_i (c_i + 1) * (W + 5)`, and the canvas height equals
`barHeight + 30`. -/
theorem draw_canvas_geometry_c5 (W H : ℤ) (streams : List bargraph_data_t) :
    draw_canvas_width W streams =
      W + (streams.map (fun d => (d.i_nb_channels + 1) * (W + 5))).sum ∧
    draw_canvas_height H = H + 30 := by
  refine ⟨?_, rfl⟩
  have h1 := foldl_add_init (fun d => (d.i_nb_channels + 1) * (5 + W)) streams W
  show streams.foldl (fun w d => w + (d.i_nb_channels + 1) * (5 + W)) W =
    W + (streams.map (fun d => (d.i_nb_channels + 1) * (W + 5))).sum
  rw [h1]
  have : (fun d : bargraph_data_t => (d.i_nb_channels + 1) * (5 + W)) =
      (fun d : bargraph_data_t => (d.i_nb_channels + 1) * (W + 5)) := by
    funext d
    ring
  rw [this]

end Bargraph
